import Mathlib

/-! Shallow embedding of `scripts/update_data.py` from the StockWorkflow
repository, and theorems checking the specification claims against it.

Numbers flowing through the pipeline are modelled as rationals; provider
calls are modelled by explicit outcome types (a call that can throw, find
nothing, or produce a value becomes a sum type), so that every control
path of the script is a value the definitions can branch on. -/

namespace StockWorkflow

/-! ## Python string primitives used by the script -/

/-- Whitespace as recognised by Python `str.strip` (ASCII subset). -/
def isSpace (c : Char) : Bool :=
  c = ' ' || c = '\t' || c = '\n' || c = '\r' || c = '\x0b' || c = '\x0c'

/-- Python `str.strip` on the character list of a string. -/
def pyStrip (l : List Char) : List Char :=
  ((l.dropWhile isSpace).reverse.dropWhile isSpace).reverse

/-- Python `str.strip` on strings. -/
def pyStripStr (s : String) : String := String.mk (pyStrip s.data)

/-- Python `str.upper` (ASCII case mapping). -/
def pyUpper (s : String) : String := String.mk (s.data.map Char.toUpper)

/-- Python `"sep".join(parts)`. -/
def pyJoin (sep : String) : List String → String
  | [] => ""
  | [m] => m
  | m :: n :: ms => m ++ sep ++ pyJoin sep (n :: ms)

/-- Python string comparison on character lists: lexicographic by code point. -/
def lexLe : List Char → List Char → Bool
  | [], _ => true
  | _ :: _, [] => false
  | a :: as, b :: bs =>
    if a < b then true
    else if b < a then false
    else lexLe as bs

/-- Python `<=` on strings (used through `sorted` on the date keys). -/
def strLe (a b : String) : Bool := lexLe a.data b.data

/-- The ordering relation on strings induced by `strLe`. -/
def strLeRel (a b : String) : Prop := strLe a b = true

instance : DecidableRel strLeRel := fun a b => decEq (strLe a b) true

/-! ## Watchlist reader (`read_watchlist`, lines 36-45) -/

/-- The error raised when the watchlist file is absent. -/
inductive WatchlistError
  | notFound
deriving DecidableEq

/-- The Python test `if t and not t.startswith('#')` on a stripped line. -/
def keepLine (t : String) : Bool :=
  match t.data with
  | [] => false
  | c :: _ => !(c = '#')

/-- `read_watchlist`: the file is given as its list of lines, or `none` when
absent (`os.path.exists` false, `FileNotFoundError` raised). -/
def read_watchlist (file : Option (List String)) : Except WatchlistError (List String) :=
  match file with
  | none => Except.error WatchlistError.notFound
  | some lines => Except.ok ((lines.map pyStripStr).filter keepLine)

/-! ## History provider adapter (`fetch_alpha_vantage_series`, lines 48-69) -/

/-- The decoded JSON body of the Alpha Vantage response: either the key
`Time Series (Daily)` is not a dict (rate limit), or it maps date keys to
entries whose `4. close` field parses to a number (`some`) or is missing or
malformed so that `float(...)` raises (`none`). -/
inductive AVBody
  | noSeries
  | series (entries : List (String × Option ℚ))
deriving DecidableEq

/-- Outcome of the HTTP layer of the request: `failure` models `requests.get`
raising, `raise_for_status` raising on a non-2xx code, or `resp.json()`
failing to decode; none of these is caught inside the function. -/
inductive HttpOutcome
  | failure
  | ok (body : AVBody)
deriving DecidableEq

/-- `fetch_alpha_vantage_series`. A `failure` outcome propagates as an
exception to the caller (`Except.error`); a body without the series dict
yields empty lists; otherwise the date keys are sorted ascending, the last
30 are kept, and each close that parses is collected (malformed entries are
skipped by the `try`/`continue`). -/
def fetch_alpha_vantage_series (resp : HttpOutcome) :
    Except Unit (List ℚ × List String) :=
  match resp with
  | HttpOutcome.failure => Except.error ()
  | HttpOutcome.ok AVBody.noSeries => Except.ok ([], [])
  | HttpOutcome.ok (AVBody.series entries) =>
    let sortedKeys := List.insertionSort strLeRel (entries.map Prod.fst)
    let dates := sortedKeys.drop (sortedKeys.length - 30)
    let closes := dates.filterMap (fun d => (entries.lookup d).join)
    Except.ok (closes, dates)

/-! ## Quote provider adapter (`safe_get_info` and `fetch_current_open_name`,
lines 72-167) -/

/-- Outcome of one keyed lookup against a provider object: the call raised,
the key was absent (or mapped to `None` in the info dict), or a value came
back. -/
inductive Lookup (α : Type)
  | raised
  | absent
  | found (v : α)
deriving DecidableEq

/-- The two sources consulted by one `safe_get_info(t, key)` call:
`t.info[key]` and `getattr(t.fast_info, key)`. A found fast-info attribute
may itself be `None`, hence the inner option. -/
structure SgiInputs where
  info : Lookup ℚ := Lookup.raised
  fast : Lookup (Option ℚ) := Lookup.raised
deriving DecidableEq

/-- `safe_get_info`: return the info value when present and non-null, else
the fast-info attribute when present (even when null), else null. All
exceptions inside are swallowed. -/
def safe_get_info (s : SgiInputs) : Option ℚ :=
  match s.info with
  | Lookup.found v => some v
  | _ =>
    match s.fast with
    | Lookup.found v => v
    | _ => none

/-- Outcome of one `t.history(...)` fallback query: the call raised, the
frame was empty (or too short to hold the wanted row), or the wanted cell
was there. -/
inductive HistOutcome
  | raised
  | empty
  | value (v : ℚ)
deriving DecidableEq

/-- The value a `t.history(...)` fallback contributes: the wanted cell, or
null when the call raised or the frame had no such row. -/
def histValue : HistOutcome → Option ℚ
  | HistOutcome.value v => some v
  | _ => none

/-- The keys of `t.info` (line 92-96; an empty dict when the call raised)
that `fetch_current_open_name` reads directly. -/
structure InfoDict where
  longName : Option String := none
  shortName : Option String := none
  marketState : Option String := none
  fiftyTwoWeekHigh : Option ℚ := none
  fiftyTwoWeekLow : Option ℚ := none
deriving DecidableEq

/-- Everything the providers feed into one `fetch_current_open_name` call. -/
structure QuoteInputs where
  info : InfoDict := {}
  currentPriceSgi : SgiInputs := {}
  lastPriceSgi : SgiInputs := {}
  openSgi : SgiInputs := {}
  previousCloseSgi : SgiInputs := {}
  volumeSgi : SgiInputs := {}
  ftwHighSgi : SgiInputs := {}
  ftwLowSgi : SgiInputs := {}
  hist1mClose : HistOutcome := HistOutcome.raised
  hist1dOpen : HistOutcome := HistOutcome.raised
  hist2dPrevClose : HistOutcome := HistOutcome.raised
  hist1dVolume : HistOutcome := HistOutcome.raised
deriving DecidableEq

/-- Python truthiness of an optional number: `None`, and zero, are falsy. -/
def truthyQ : Option ℚ → Bool
  | none => false
  | some q => !(q = 0)

/-- Python truthiness of an optional string: `None`, and the empty string,
are falsy. -/
def truthyS : Option String → Bool
  | none => false
  | some s => !(s.data = [])

/-- Python `a or b` on optional numbers. -/
def pyOrQ (a b : Option ℚ) : Option ℚ := if truthyQ a then a else b

/-- Python `a or b` on optional strings. -/
def pyOrS (a b : Option String) : Option String := if truthyS a then a else b

/-- The dict returned by `fetch_current_open_name` (lines 158-167). -/
structure Basics where
  current : Option ℚ
  dayOpen : Option ℚ
  previousClose : Option ℚ
  volume : Option ℚ
  fiftyTwoWeekHigh : Option ℚ
  fiftyTwoWeekLow : Option ℚ
  marketOpen : Bool
  companyName : String
deriving DecidableEq

/-- `fetch_current_open_name` (lines 89-167). -/
def fetch_current_open_name (ticker : String) (q : QuoteInputs) : Basics :=
  let current :=
    match safe_get_info q.currentPriceSgi with
    | some v => some v
    | none =>
      match safe_get_info q.lastPriceSgi with
      | some v => some v
      | none => histValue q.hist1mClose
  let dayOpen :=
    match safe_get_info q.openSgi with
    | some v => some v
    | none => histValue q.hist1dOpen
  let previousClose :=
    match safe_get_info q.previousCloseSgi with
    | some v => some v
    | none => histValue q.hist2dPrevClose
  let volume :=
    match safe_get_info q.volumeSgi with
    | some v => some v
    | none => histValue q.hist1dVolume
  let ftwHigh := pyOrQ q.info.fiftyTwoWeekHigh (safe_get_info q.ftwHighSgi)
  let ftwLow := pyOrQ q.info.fiftyTwoWeekLow (safe_get_info q.ftwLowSgi)
  let marketState := pyUpper (q.info.marketState.getD "REGULAR")
  let isOpen := marketState = "REGULAR" || marketState = "PRE" || marketState = "PREPRE"
  let nameOrNull := pyOrS q.info.longName q.info.shortName
  let companyName :=
    match nameOrNull with
    | some s => if s.data = [] then ticker else s
    | none => ticker
  { current := current
    dayOpen := dayOpen
    previousClose := previousClose
    volume := volume
    fiftyTwoWeekHigh := ftwHigh
    fiftyTwoWeekLow := ftwLow
    marketOpen := isOpen
    companyName := companyName }

/-! ## Aggregation (loop body of `main`, lines 202-238) -/

/-- Embeds Python `round(x, 2)`. Python rounds ties on the underlying
binary float; the model rounds half up. No property below depends on a
tie at a half-hundredth. -/
def round2 (q : ℚ) : ℚ := ((round (q * 100) : ℤ) : ℚ) / 100

/-- Embeds Python `int(x)`: truncation toward zero. -/
def pyTrunc (q : ℚ) : ℤ := q.num.tdiv (q.den : ℤ)

/-- Lines 203-208: `(day_change, pct_change)`, both null unless current and
open are present and open is nonzero. -/
def dayChangePair (current dayOpen : Option ℚ) : Option (ℚ × ℚ) :=
  match current, dayOpen with
  | some c, some o => if o = 0 then none else some (c - o, (c - o) / o * 100)
  | _, _ => none

/-- Lines 210-215: `(change_from_close, change_from_close_pct)`, both null
unless current and previous close are present and the latter is positive. -/
def closeChangePair (current previousClose : Option ℚ) : Option (ℚ × ℚ) :=
  match current, previousClose with
  | some c, some p => if 0 < p then some (c - p, (c - p) / p * 100) else none
  | _, _ => none

/-- One element of the `stocks` array (lines 217-232). -/
structure StockRecord where
  ticker : String
  companyName : String
  currentPrice : Option ℚ
  dayChange : Option ℚ
  dayChangePercent : Option ℚ
  previousClose : Option ℚ
  changeFromClose : Option ℚ
  changeFromClosePercent : Option ℚ
  volume : Option ℤ
  fiftyTwoWeekHigh : Option ℚ
  fiftyTwoWeekLow : Option ℚ
  marketOpen : Bool
  historicalData : List ℚ
  historicalDates : List String
deriving DecidableEq

/-- One alert (lines 236-238): the ticker, the direction string, and the
rounded percent interpolated into the message. -/
structure AlertEvent where
  ticker : String
  direction : String
  percent : ℚ
deriving DecidableEq

/-- Renders an integer number of hundredths the way Python `str(float)`
renders the corresponding 2-decimal value (trailing zeros dropped, at
least one fractional digit kept). -/
def fmtHundredths (h : ℤ) : String :=
  let sgn := if h < 0 then "-" else ""
  let a := h.natAbs
  let ip := a / 100
  let fp := a % 100
  if fp = 0 then sgn ++ toString ip ++ ".0"
  else if fp % 10 = 0 then sgn ++ toString ip ++ "." ++ toString (fp / 10)
  else if fp < 10 then sgn ++ toString ip ++ ".0" ++ toString fp
  else sgn ++ toString ip ++ "." ++ toString fp

/-- Renders a 2-decimal-rounded rational as Python formats `round(x, 2)`. -/
def fmtQ (q : ℚ) : String := fmtHundredths (round (q * 100))

/-- The f-string of line 238. -/
def alertMessage (e : AlertEvent) : String :=
  "STOCK ALERT: " ++ e.ticker ++ " is " ++ e.direction ++ " " ++ fmtQ e.percent ++ "%"

/-- Lines 236-238: emit an alert when the raw day change percent is present
and beyond the threshold; the threshold test reads the unrounded percent,
the message carries the rounded one. -/
def mkAlert (ticker : String) (pct : Option ℚ) : Option AlertEvent :=
  match pct with
  | some p =>
    if 2 < p ∨ p < -2 then
      some { ticker := ticker
             direction := if 2 < p then "up" else "down"
             percent := round2 p }
    else none
  | none => none

/-- The record built at lines 217-232 from the quote basics and the
historical series. -/
def mkStockRecord (ticker : String) (b : Basics) (series : List ℚ)
    (dates : List String) : StockRecord :=
  let dc := dayChangePair b.current b.dayOpen
  let cc := closeChangePair b.current b.previousClose
  { ticker := ticker
    companyName := b.companyName
    currentPrice := b.current.map round2
    dayChange := (dc.map Prod.fst).map round2
    dayChangePercent := (dc.map Prod.snd).map round2
    previousClose := b.previousClose.map round2
    changeFromClose := (cc.map Prod.fst).map round2
    changeFromClosePercent := (cc.map Prod.snd).map round2
    volume := b.volume.map pyTrunc
    fiftyTwoWeekHigh := b.fiftyTwoWeekHigh.map round2
    fiftyTwoWeekLow := b.fiftyTwoWeekLow.map round2
    marketOpen := b.marketOpen
    historicalData := (series.map round2).drop ((series.map round2).length - 30)
    historicalDates := dates.drop (dates.length - 30) }

/-- The body of the per-ticker `try` block (lines 188-241) up to the point
where side effects stop mattering: `none` when an exception escapes to the
`except` at line 243 (which in this model only the history HTTP layer can
produce), otherwise the record to append and the alert, if any. -/
def processTicker (ticker : String) (q : QuoteInputs) (h : HttpOutcome) :
    Option (StockRecord × Option AlertEvent) :=
  let b := fetch_current_open_name ticker q
  match fetch_alpha_vantage_series h with
  | Except.error _ => none
  | Except.ok (series, dates) =>
    let dc := dayChangePair b.current b.dayOpen
    some (mkStockRecord ticker b series dates, mkAlert ticker (dc.map Prod.snd))

/-! ## Orchestrator (`main`, lines 170-266) -/

/-- Observable steps of one run, in order: the yfinance quote work for a
ticker, the Alpha Vantage HTTP request for a ticker, and `time.sleep(1.0)`. -/
inductive Event
  | quoteFetch (ticker : String)
  | historyRequest (ticker : String)
  | sleep
deriving DecidableEq

/-- The `for ticker in tickers` loop (lines 187-245). `fetch i` gives the
provider behavior seen by iteration `i`. Returns the accumulated records,
alert messages, and event trace. A failing iteration contributes its quote
and history events but no record, no alert, and no sleep (the `continue`
at line 245 skips line 241). -/
def runLoop (fetch : Nat → QuoteInputs × HttpOutcome) :
    List String → Nat → List StockRecord × List String × List Event
  | [], _ => ([], [], [])
  | t :: rest, i =>
    let q := (fetch i).1
    let h := (fetch i).2
    let tail := runLoop fetch rest (i + 1)
    match processTicker t q h with
    | none =>
      (tail.1, tail.2.1,
        Event.quoteFetch t :: Event.historyRequest t :: tail.2.2)
    | some (r, a) =>
      (r :: tail.1,
        (match a with | some e => [alertMessage e] | none => []) ++ tail.2.1,
        Event.quoteFetch t :: Event.historyRequest t :: Event.sleep :: tail.2.2)

/-- Python falsiness of the `ALPHA_VANTAGE_KEY` environment value: unset,
or set to the empty string. -/
def keyMissing : Option String → Bool
  | none => true
  | some s => s.data = []

/-- Result of one run of `main`: exit code, the `stocks` array, the alert
messages, the content written to the alert artifact (`none` when no write
happens and a pre-existing file stays untouched), and the event trace. -/
structure RunResult where
  exitCode : Nat
  stocks : List StockRecord
  alerts : List String
  alertFile : Option String
  trace : List Event
deriving DecidableEq

/-- `main`: watchlist read failure or a falsy credential abort with exit 1
before the loop; otherwise the loop runs, `data.json` is written, and the
alert artifact is written only when alerts exist, as
`"\n".join(alerts).strip() + "\n"` (line 258). -/
def runMain (watchlist : Option (List String)) (key : Option String)
    (fetch : Nat → QuoteInputs × HttpOutcome) : RunResult :=
  match read_watchlist watchlist with
  | Except.error _ => { exitCode := 1, stocks := [], alerts := [], alertFile := none, trace := [] }
  | Except.ok tickers =>
    if keyMissing key then
      { exitCode := 1, stocks := [], alerts := [], alertFile := none, trace := [] }
    else
      let out := runLoop fetch tickers 0
      { exitCode := 0
        stocks := out.1
        alerts := out.2.1
        alertFile :=
          if out.2.1 = [] then none
          else some (pyStripStr (pyJoin "\n" out.2.1) ++ "\n")
        trace := out.2.2 }

/-! ## Spec-side resolution strategy and trace predicates -/

/-- Modelled from the spec words (section 4.2): evaluate the sources of a
field in order and short-circuit at the first source yielding a non-null
value. -/
def resolveFirstSome : List (Option ℚ) → Option ℚ
  | [] => none
  | s :: rest =>
    match s with
    | some v => some v
    | none => resolveFirstSome rest

/-- The info-dict side of one `safe_get_info` call, as an optional value. -/
def lookupOpt : Lookup ℚ → Option ℚ
  | Lookup.found v => some v
  | _ => none

/-- The fast-info side of one `safe_get_info` call, as an optional value. -/
def fastOpt : Lookup (Option ℚ) → Option ℚ
  | Lookup.found v => v
  | _ => none

/-- Keeps the events the C9 claim is about: history requests and sleeps. -/
def histOrSleep : Event → Bool
  | Event.historyRequest _ => true
  | Event.sleep => true
  | Event.quoteFetch _ => false

/-- True when two history requests appear with no sleep between them,
scanning a trace already restricted to history requests and sleeps. -/
def adjacentHist : List Event → Bool
  | Event.historyRequest _ :: Event.historyRequest _ :: _ => true
  | _ :: rest => adjacentHist rest
  | [] => false

/-- The C9 property of a trace: every pair of consecutive history-provider
requests is separated by a sleep step. -/
def sleepSeparated (tr : List Event) : Bool :=
  !adjacentHist (tr.filter histOrSleep)

/-! ## Concrete provider behaviors used by witnesses and counterexamples -/

/-- Quote inputs of the spec scenario: current 150, open 145, previous
close 140, everything else unavailable. -/
def w1q : QuoteInputs :=
  { currentPriceSgi := { info := Lookup.found 150 }
    openSgi := { info := Lookup.found 145 }
    previousCloseSgi := { info := Lookup.found 140 } }

/-- The basics `fetch_current_open_name` produces from `w1q`. -/
def b1 : Basics :=
  { current := some 150, dayOpen := some 145, previousClose := some 140,
    volume := none, fiftyTwoWeekHigh := none, fiftyTwoWeekLow := none,
    marketOpen := true, companyName := "AAPL" }

/-- The record the loop builds from `w1q` and an empty series. -/
def r1 : StockRecord :=
  { ticker := "AAPL", companyName := "AAPL", currentPrice := some 150,
    dayChange := some 5, dayChangePercent := some (69/20),
    previousClose := some 140, changeFromClose := some 10,
    changeFromClosePercent := some (357/50), volume := none,
    fiftyTwoWeekHigh := none, fiftyTwoWeekLow := none, marketOpen := true,
    historicalData := [], historicalDates := [] }

/-- The alert the loop emits from `w1q`. -/
def a1 : AlertEvent := { ticker := "AAPL", direction := "up", percent := 69/20 }

/-- Quote inputs whose raw day change percent is 2.001: above the threshold
but rounding to 2.0. -/
def q10a : QuoteInputs :=
  { currentPriceSgi := { info := Lookup.found (102001/100) }
    openSgi := { info := Lookup.found 1000 } }

/-- Quote inputs whose raw day change percent is exactly 2. -/
def q10b : QuoteInputs :=
  { currentPriceSgi := { info := Lookup.found 1020 }
    openSgi := { info := Lookup.found 1000 } }

/-- Quote inputs whose info dict holds an empty long name next to a
non-empty short name. -/
def q6 : QuoteInputs :=
  { info := { longName := some "", shortName := some "Acme Corp" } }

/-- Provider behavior where iteration 0 hits an HTTP failure and every
later iteration succeeds with an empty series. -/
def quoteFailThenOk : Nat → QuoteInputs × HttpOutcome := fun i =>
  if i = 0 then ({}, HttpOutcome.failure) else ({}, HttpOutcome.ok AVBody.noSeries)

/-- Provider behavior where every iteration succeeds with an empty series
and no quote data. -/
def allOk : Nat → QuoteInputs × HttpOutcome := fun _ =>
  ({}, HttpOutcome.ok AVBody.noSeries)

/-- Provider behavior where every iteration sees the `w1q` quote data, so
every ticker raises an alert. -/
def alertRun : Nat → QuoteInputs × HttpOutcome := fun _ =>
  (w1q, HttpOutcome.ok AVBody.noSeries)

/-! ## Order lemmas for the date sort -/

theorem lexLe_total (as bs : List Char) : lexLe as bs = true ∨ lexLe bs as = true := by
  induction as generalizing bs with
  | nil => left; rfl
  | cons a as ih =>
    cases bs with
    | nil => right; rfl
    | cons b bs' =>
      rcases lt_trichotomy a b with h | h | h
      · left; simp [lexLe, h]
      · subst h
        rcases ih bs' with h2 | h2
        · left; simp [lexLe, h2]
        · right; simp [lexLe, h2]
      · right; simp [lexLe, h]

theorem lexLe_trans (as bs cs : List Char) (h1 : lexLe as bs = true)
    (h2 : lexLe bs cs = true) : lexLe as cs = true := by
  induction as generalizing bs cs with
  | nil => rfl
  | cons a as ih =>
    cases bs with
    | nil => simp [lexLe] at h1
    | cons b bs' =>
      cases cs with
      | nil => simp [lexLe] at h2
      | cons c cs' =>
        rcases lt_trichotomy a b with hab | hab | hab
        · rcases lt_trichotomy b c with hbc | hbc | hbc
          · simp [lexLe, lt_trans hab hbc]
          · subst hbc; simp [lexLe, hab]
          · simp [lexLe, hbc, lt_asymm hbc] at h2
        · subst hab
          simp only [lexLe, lt_irrefl, if_false] at h1
          rcases lt_trichotomy a c with hac | hac | hac
          · simp [lexLe, hac]
          · subst hac
            simp only [lexLe, lt_irrefl, if_false] at h2 ⊢
            exact ih bs' cs' h1 h2
          · simp [lexLe, hac, lt_asymm hac] at h2
        · simp [lexLe, hab, lt_asymm hab] at h1

instance : IsTotal String strLeRel :=
  ⟨fun a b => lexLe_total a.data b.data⟩

instance : IsTrans String strLeRel :=
  ⟨fun a b c h1 h2 => lexLe_trans a.data b.data c.data h1 h2⟩

/-! ## Helper lemmas about the adapters -/

/-- The only exception that escapes a per-ticker iteration comes from the
history HTTP layer; the quote adapter is total. -/
theorem processTicker_none_iff (t : String) (q : QuoteInputs) (h : HttpOutcome) :
    processTicker t q h = none ↔ h = HttpOutcome.failure := by
  cases h with
  | failure => simp [processTicker, fetch_alpha_vantage_series]
  | ok body => cases body <;> simp [processTicker, fetch_alpha_vantage_series]

/-! ## C7: the watchlist reader -/

/-- C7: for an existing watchlist file the reader returns exactly the
non-empty, non-comment trimmed lines, in file order with duplicates kept,
so N valid lines give exactly N entries; an absent file yields the
NotFound error. -/
theorem claim7_read_watchlist (lines : List String) :
    read_watchlist none = Except.error WatchlistError.notFound ∧
    read_watchlist (some lines) =
      Except.ok ((lines.filter (fun l => keepLine (pyStripStr l))).map pyStripStr) ∧
    ∀ out, read_watchlist (some lines) = Except.ok out →
      out.length = lines.countP (fun l => keepLine (pyStripStr l)) := by
  refine ⟨rfl, ?_, ?_⟩
  · simp only [read_watchlist, List.filter_map]
    rfl
  · intro out hout
    simp only [read_watchlist, Except.ok.injEq] at hout
    subst hout
    rw [← List.countP_eq_length_filter, List.countP_map]
    rfl

/-- Witness for C7 at a concrete four-line file with a blank line, a
comment line, and padded whitespace. -/
theorem claim7_read_watchlist_witness :
    read_watchlist (some ["AAPL", "", "# note", "  MSFT  "]) =
      Except.ok ["AAPL", "MSFT"] :=
  (claim7_read_watchlist ["AAPL", "", "# note", "  MSFT  "]).2.1.trans (by rfl)

/-! ## C4: exception behavior at the adapter boundaries -/

/-- Counterexample to C4 as stated: a failing HTTP request (network error
or non-2xx status hitting `raise_for_status`, or an undecodable body) makes
`fetch_alpha_vantage_series` raise to its caller instead of returning an
empty series. -/
theorem claim4_counterexample :
    fetch_alpha_vantage_series HttpOutcome.failure = Except.error () := rfl

/-- C4 amended: the quote adapter is total (every per-field provider
failure is caught and becomes an absent value), and the history adapter
catches only the missing-series body shape; it raises exactly on HTTP-layer
failures, which are then caught by the per-ticker handler in `main`. -/
theorem claim4_amended (t : String) (q : QuoteInputs) (h : HttpOutcome) :
    ((∃ out, fetch_alpha_vantage_series h = Except.ok out) ↔ h ≠ HttpOutcome.failure) ∧
    (processTicker t q h = none ↔ h = HttpOutcome.failure) ∧
    (∀ entries, fetch_alpha_vantage_series (HttpOutcome.ok (AVBody.series entries))
        ≠ Except.error ()) ∧
    fetch_alpha_vantage_series (HttpOutcome.ok AVBody.noSeries) = Except.ok ([], []) := by
  refine ⟨?_, processTicker_none_iff t q h, ?_, rfl⟩
  · cases h with
    | failure => simp [fetch_alpha_vantage_series]
    | ok body => cases body <;> simp [fetch_alpha_vantage_series]
  · intro entries
    simp [fetch_alpha_vantage_series]

/-- Witness for C4 amended: a concrete failing HTTP outcome makes the
iteration fail, and a concrete missing-series body does not. -/
theorem claim4_amended_witness :
    processTicker "A" {} HttpOutcome.failure = none ∧
    fetch_alpha_vantage_series (HttpOutcome.ok AVBody.noSeries) = Except.ok ([], []) :=
  ⟨(claim4_amended "A" {} HttpOutcome.failure).2.1.mpr rfl,
    (claim4_amended "A" {} HttpOutcome.failure).2.2.2⟩

/-! ## C3: shape of the historical series -/

/-- Counterexample to C3 as stated: one date whose `4. close` is malformed
is skipped from the closes but kept among the dates, so the two sequences
have different lengths. -/
theorem claim3_counterexample :
    fetch_alpha_vantage_series
        (HttpOutcome.ok (AVBody.series [("2024-01-02", none)])) =
      Except.ok ([], ["2024-01-02"]) ∧
    ¬ (([] : List ℚ).length = ["2024-01-02"].length) := by
  exact ⟨rfl, by decide⟩

/-- C3 amended: the history adapter returns the date labels sorted
ascending with at most 30 of them, and the closes are at most as many as
the dates (fewer exactly when a selected entry has a malformed close);
every emitted record inherits these bounds. -/
theorem claim3_amended (resp : HttpOutcome) (closes : List ℚ) (dates : List String)
    (hp : fetch_alpha_vantage_series resp = Except.ok (closes, dates)) :
    List.Sorted strLeRel dates ∧ dates.length ≤ 30 ∧
    closes.length ≤ dates.length ∧
    ∀ t q r a, processTicker t q resp = some (r, a) →
      r.historicalDates = dates ∧ List.Sorted strLeRel r.historicalDates ∧
      r.historicalDates.length ≤ 30 ∧
      r.historicalData.length ≤ r.historicalDates.length := by
  have main : List.Sorted strLeRel dates ∧ dates.length ≤ 30 ∧
      closes.length ≤ dates.length := by
    cases resp with
    | failure => simp [fetch_alpha_vantage_series] at hp
    | ok body =>
      cases body with
      | noSeries =>
        simp only [fetch_alpha_vantage_series, Except.ok.injEq, Prod.mk.injEq] at hp
        obtain ⟨h1, h2⟩ := hp
        subst h1; subst h2
        refine ⟨List.sorted_nil, by simp, by simp⟩
      | series entries =>
        simp only [fetch_alpha_vantage_series, Except.ok.injEq, Prod.mk.injEq] at hp
        obtain ⟨h1, h2⟩ := hp
        subst h1; subst h2
        refine ⟨?_, ?_, List.length_filterMap_le _ _⟩
        · exact List.Pairwise.sublist (List.drop_sublist _ _)
            (List.sorted_insertionSort strLeRel (entries.map Prod.fst))
        · rw [List.length_drop]
          omega
  refine ⟨main.1, main.2.1, main.2.2, ?_⟩
  intro t q r a hpt
  simp only [processTicker, hp] at hpt
  obtain ⟨hr, _⟩ := Prod.mk.injEq .. ▸ (Option.some.injEq _ _ ▸ hpt)
  have hdates : r.historicalDates = dates := by
    rw [← hr]
    simp only [mkStockRecord]
    have : dates.length - 30 = 0 := Nat.sub_eq_zero_of_le main.2.1
    rw [this, List.drop_zero]
  have hdata : r.historicalData.length ≤ closes.length := by
    rw [← hr]
    simp only [mkStockRecord]
    calc ((closes.map round2).drop ((closes.map round2).length - 30)).length
        ≤ (closes.map round2).length := by
          rw [List.length_drop]; omega
      _ = closes.length := List.length_map _ _
  refine ⟨hdates, hdates ▸ main.1, hdates ▸ main.2.1, ?_⟩
  rw [hdates]
  exact le_trans hdata main.2.2

/-- Witness for C3 amended at a concrete two-entry response given in
reverse date order. -/
theorem claim3_amended_witness :
    List.Sorted strLeRel ["2024-01-02", "2024-01-03"] ∧
    (["2024-01-02", "2024-01-03"] : List String).length ≤ 30 ∧
    ([(2 : ℚ), 1] : List ℚ).length ≤ (["2024-01-02", "2024-01-03"] : List String).length ∧
    ∀ t q r a,
      processTicker t q (HttpOutcome.ok (AVBody.series
          [("2024-01-03", some 1), ("2024-01-02", some 2)])) = some (r, a) →
      r.historicalDates = ["2024-01-02", "2024-01-03"] ∧
      List.Sorted strLeRel r.historicalDates ∧
      r.historicalDates.length ≤ 30 ∧
      r.historicalData.length ≤ r.historicalDates.length :=
  claim3_amended
    (HttpOutcome.ok (AVBody.series [("2024-01-03", some 1), ("2024-01-02", some 2)]))
    [2, 1] ["2024-01-02", "2024-01-03"] (by rfl)

/-! ## C1: derived change fields -/

/-- C1: in every record the loop emits, day change and day change percent
are the rounded difference and rounded percent difference against the open
when current and open are present and open is nonzero, and are both null
when current is absent or open is absent or zero; the close-based pair is
present exactly when current and previous close are present and the
previous close is positive. -/
theorem claim1_changes (t : String) (q : QuoteInputs) (h : HttpOutcome)
    (b : Basics) (r : StockRecord) (a : Option AlertEvent)
    (hb : fetch_current_open_name t q = b)
    (hp : processTicker t q h = some (r, a)) :
    (∀ c o, b.current = some c → b.dayOpen = some o → o ≠ 0 →
      r.dayChange = some (round2 (c - o)) ∧
      r.dayChangePercent = some (round2 ((c - o) / o * 100))) ∧
    (b.current = none ∨ b.dayOpen = none ∨ b.dayOpen = some 0 →
      r.dayChange = none ∧ r.dayChangePercent = none) ∧
    (∀ c p, b.current = some c → b.previousClose = some p → 0 < p →
      r.changeFromClose = some (round2 (c - p)) ∧
      r.changeFromClosePercent = some (round2 ((c - p) / p * 100))) ∧
    ((b.current = none ∨ b.previousClose = none ∨
        ∃ p, b.previousClose = some p ∧ p ≤ 0) →
      r.changeFromClose = none ∧ r.changeFromClosePercent = none) := by
  cases hfs : fetch_alpha_vantage_series h with
  | error e => simp [processTicker, hfs] at hp
  | ok sd =>
    obtain ⟨series, dates⟩ := sd
    simp only [processTicker, hfs, hb, Option.some.injEq, Prod.mk.injEq] at hp
    obtain ⟨hr, -⟩ := hp
    subst hr
    refine ⟨?_, ?_, ?_, ?_⟩
    · intro c o hc ho ho0
      simp [mkStockRecord, dayChangePair, hc, ho, ho0]
    · rintro (hc | ho | ho)
      · simp [mkStockRecord, dayChangePair, hc]
      · cases hc : b.current <;> simp [mkStockRecord, dayChangePair, hc, ho]
      · cases hc : b.current <;> simp [mkStockRecord, dayChangePair, hc, ho]
    · intro c p hc hpc hpos
      simp [mkStockRecord, closeChangePair, hc, hpc, hpos]
    · rintro (hc | hpc | ⟨p, hpc, hple⟩)
      · simp [mkStockRecord, closeChangePair, hc]
      · cases hc : b.current <;> simp [mkStockRecord, closeChangePair, hc, hpc]
      · cases hc : b.current <;>
          simp [mkStockRecord, closeChangePair, hc, hpc, not_lt.mpr hple]

/-- The basics computed from the scenario inputs. -/
theorem fetch_w1q : fetch_current_open_name "AAPL" w1q = b1 := rfl

/-- The record and alert the loop computes from the scenario inputs. -/
theorem processTicker_w1q :
    processTicker "AAPL" w1q (HttpOutcome.ok AVBody.noSeries) =
      some (r1, some a1) := by
  simp only [processTicker, fetch_alpha_vantage_series, fetch_w1q]
  norm_num [mkStockRecord, mkAlert, dayChangePair, closeChangePair, b1, r1, a1,
    round2, round_eq, StockRecord.mk.injEq, AlertEvent.mk.injEq]

/-- Witness for C1: the scenario inputs give day change 5.00 and day change
percent 3.45. -/
theorem claim1_changes_witness :
    r1.dayChange = some (round2 (150 - 145)) ∧
    r1.dayChangePercent = some (round2 ((150 - 145) / 145 * 100)) :=
  (claim1_changes "AAPL" w1q (HttpOutcome.ok AVBody.noSeries) b1 r1 (some a1)
    fetch_w1q processTicker_w1q).1 150 145 rfl rfl (by norm_num)

/-! ## C2: the alert rule -/

/-- C2: an alert is emitted for a ticker exactly when its raw day change
percent is present and above 2 or below -2; the direction is up exactly
when the percent exceeds 2, down otherwise, and the message is the STOCK
ALERT template around the ticker, the direction, and the percent rounded
to two decimals. -/
theorem claim2_alerts (t : String) (q : QuoteInputs) (h : HttpOutcome)
    (b : Basics) (r : StockRecord) (a : Option AlertEvent)
    (hb : fetch_current_open_name t q = b)
    (hp : processTicker t q h = some (r, a)) :
    (a ≠ none ↔ ∃ p, (dayChangePair b.current b.dayOpen).map Prod.snd = some p ∧
      (2 < p ∨ p < -2)) ∧
    (∀ e p, a = some e →
      (dayChangePair b.current b.dayOpen).map Prod.snd = some p →
      e.ticker = t ∧ e.direction = (if 2 < p then "up" else "down") ∧
      e.percent = round2 p ∧
      alertMessage e =
        "STOCK ALERT: " ++ t ++ " is " ++ e.direction ++ " " ++
          fmtQ (round2 p) ++ "%") := by
  cases hfs : fetch_alpha_vantage_series h with
  | error e => simp [processTicker, hfs] at hp
  | ok sd =>
    obtain ⟨series, dates⟩ := sd
    simp only [processTicker, hfs, hb, Option.some.injEq, Prod.mk.injEq] at hp
    obtain ⟨-, ha⟩ := hp
    constructor
    · rw [← ha]
      cases hpc : (dayChangePair b.current b.dayOpen).map Prod.snd with
      | none => simp [mkAlert]
      | some p =>
        by_cases hth : 2 < p ∨ p < -2
        · simp [mkAlert, hth]
        · simp [mkAlert, hth]
    · intro e p he hpc
      rw [← ha] at he
      rw [hpc] at he
      by_cases hth : 2 < p ∨ p < -2
      · simp only [mkAlert, hth, if_true] at he
        obtain rfl := (Option.some.injEq _ _).mp he.symm
        refine ⟨rfl, rfl, rfl, rfl⟩
      · simp [mkAlert, hth] at he

/-- Witness for C2: the scenario alert has direction up and carries the
rounded percent 3.45. -/
theorem claim2_alerts_witness :
    a1.ticker = "AAPL" ∧ a1.direction = (if 2 < (100 : ℚ)/29 then "up" else "down") ∧
    a1.percent = round2 ((100 : ℚ)/29) ∧
    alertMessage a1 =
      "STOCK ALERT: " ++ "AAPL" ++ " is " ++ a1.direction ++ " " ++
        fmtQ (round2 ((100 : ℚ)/29)) ++ "%" :=
  (claim2_alerts "AAPL" w1q (HttpOutcome.ok AVBody.noSeries) b1 r1 (some a1)
    fetch_w1q processTicker_w1q).2 a1 (100/29) rfl
    (by norm_num [b1, dayChangePair])

/-! ## C10: threshold on the unrounded percent -/

/-- `round(2.0, 2)` rendered the Python way. -/
theorem fmtQ_two : fmtQ 2 = "2.0" := by
  have h : round ((2 : ℚ) * 100) = 200 := by norm_num [round_eq]
  rw [fmtQ, h]
  rfl

/-- C10: a raw day change percent of 2.001 is emitted in the record as the
rounded 2.0 while still producing an up alert whose message reads 2.0%;
a raw percent of exactly 2.0 produces no alert. -/
theorem claim10_threshold_unrounded :
    (processTicker "XYZ" q10a (HttpOutcome.ok AVBody.noSeries)).map
        (fun x => (x.1.dayChangePercent, x.2.map alertMessage)) =
      some (some 2, some "STOCK ALERT: XYZ is up 2.0%") ∧
    (processTicker "XYZ" q10b (HttpOutcome.ok AVBody.noSeries)).map
        (fun x => (x.1.dayChangePercent, x.2)) =
      some (some 2, none) := by
  constructor
  · have hb : fetch_current_open_name "XYZ" q10a =
        { current := some (102001/100), dayOpen := some 1000,
          previousClose := none, volume := none, fiftyTwoWeekHigh := none,
          fiftyTwoWeekLow := none, marketOpen := true, companyName := "XYZ" } := rfl
    simp only [processTicker, fetch_alpha_vantage_series, hb]
    norm_num [mkStockRecord, mkAlert, dayChangePair, round2, round_eq]
    rw [alertMessage]
    norm_num [round2, round_eq, fmtQ_two]
    rfl
  · have hb : fetch_current_open_name "XYZ" q10b =
        { current := some 1020, dayOpen := some 1000,
          previousClose := none, volume := none, fiftyTwoWeekHigh := none,
          fiftyTwoWeekLow := none, marketOpen := true, companyName := "XYZ" } := rfl
    simp only [processTicker, fetch_alpha_vantage_series, hb]
    norm_num [mkStockRecord, mkAlert, dayChangePair, round2, round_eq]

/-! ## C6: field resolution order in the quote adapter -/

/-- A two-stage fallback through one `safe_get_info` call and one history
fallback equals first-non-null resolution over the flattened source list. -/
theorem or2_resolve (s : SgiInputs) (hv : Option ℚ) :
    (match safe_get_info s with
     | some v => some v
     | none => hv) =
    resolveFirstSome [lookupOpt s.info, fastOpt s.fast, hv] := by
  obtain ⟨i, f⟩ := s
  cases i <;> cases f <;> cases hv <;> rfl

/-- A three-stage fallback through two `safe_get_info` calls and one
history fallback equals first-non-null resolution over the flattened
source list. -/
theorem or3_resolve (s1 s2 : SgiInputs) (hv : Option ℚ) :
    (match safe_get_info s1 with
     | some v => some v
     | none =>
       match safe_get_info s2 with
       | some v => some v
       | none => hv) =
    resolveFirstSome [lookupOpt s1.info, fastOpt s1.fast,
      lookupOpt s2.info, fastOpt s2.fast, hv] := by
  obtain ⟨i1, f1⟩ := s1
  obtain ⟨i2, f2⟩ := s2
  cases i1 <;> cases f1 <;> cases i2 <;> cases f2 <;> cases hv <;> rfl

/-- The company-name resolution of lines 153-156 as a truthiness chain. -/
theorem nameResolve (t : String) (ln sn : Option String) :
    (match pyOrS ln sn with
     | some s => if s.data = [] then t else s
     | none => t) =
    (if truthyS ln then ln.getD t
     else if truthyS sn then sn.getD t else t) := by
  cases ln with
  | none =>
    cases sn with
    | none => rfl
    | some s => by_cases h : s.data = [] <;> simp [pyOrS, truthyS, h]
  | some s1 =>
    by_cases h1 : s1.data = []
    · cases sn with
      | none => simp [pyOrS, truthyS, h1]
      | some s2 => by_cases h2 : s2.data = [] <;> simp [pyOrS, truthyS, h1, h2]
    · simp [pyOrS, truthyS, h1]

/-- Counterexample to C6 as stated: an info dict holding the empty string
as long name (non-null) next to a non-empty short name makes the adapter
return the short name, not the first non-null source value. -/
theorem claim6_counterexample :
    q6.info.longName = some "" ∧
    (fetch_current_open_name "ACME" q6).companyName = "Acme Corp" ∧
    (fetch_current_open_name "ACME" q6).companyName ≠ "" := by
  refine ⟨rfl, rfl, by decide⟩

/-- C6 amended: the price-like fields short-circuit at the first non-null
source in the fixed order the spec lists; the 52-week fields and the
company name instead short-circuit at the first truthy value, so a
present-but-zero 52-week field or an empty long or short name falls
through (the ticker symbol remains the last resort for the name). -/
theorem claim6_amended (t : String) (q : QuoteInputs) (b : Basics)
    (hb : fetch_current_open_name t q = b) :
    b.current = resolveFirstSome [lookupOpt q.currentPriceSgi.info,
      fastOpt q.currentPriceSgi.fast, lookupOpt q.lastPriceSgi.info,
      fastOpt q.lastPriceSgi.fast, histValue q.hist1mClose] ∧
    b.dayOpen = resolveFirstSome [lookupOpt q.openSgi.info,
      fastOpt q.openSgi.fast, histValue q.hist1dOpen] ∧
    b.previousClose = resolveFirstSome [lookupOpt q.previousCloseSgi.info,
      fastOpt q.previousCloseSgi.fast, histValue q.hist2dPrevClose] ∧
    b.volume = resolveFirstSome [lookupOpt q.volumeSgi.info,
      fastOpt q.volumeSgi.fast, histValue q.hist1dVolume] ∧
    b.fiftyTwoWeekHigh = (if truthyQ q.info.fiftyTwoWeekHigh
      then q.info.fiftyTwoWeekHigh else safe_get_info q.ftwHighSgi) ∧
    b.fiftyTwoWeekLow = (if truthyQ q.info.fiftyTwoWeekLow
      then q.info.fiftyTwoWeekLow else safe_get_info q.ftwLowSgi) ∧
    b.companyName = (if truthyS q.info.longName then q.info.longName.getD t
      else if truthyS q.info.shortName then q.info.shortName.getD t else t) := by
  subst hb
  refine ⟨?_, ?_, ?_, ?_, rfl, rfl, ?_⟩
  · exact or3_resolve q.currentPriceSgi q.lastPriceSgi (histValue q.hist1mClose)
  · exact or2_resolve q.openSgi (histValue q.hist1dOpen)
  · exact or2_resolve q.previousCloseSgi (histValue q.hist2dPrevClose)
  · exact or2_resolve q.volumeSgi (histValue q.hist1dVolume)
  · exact nameResolve t q.info.longName q.info.shortName

/-- Witness for C6 amended: the scenario inputs resolve the current price
from the first source. -/
theorem claim6_amended_witness :
    b1.current = resolveFirstSome [lookupOpt w1q.currentPriceSgi.info,
      fastOpt w1q.currentPriceSgi.fast, lookupOpt w1q.lastPriceSgi.info,
      fastOpt w1q.lastPriceSgi.fast, histValue w1q.hist1mClose] :=
  (claim6_amended "AAPL" w1q b1 fetch_w1q).1

/-! ## C5: exit status and startup aborts -/

/-- C5: the run exits non-zero exactly when the watchlist is unreadable or
the credential is falsy (unset or empty); both cases abort before any
per-ticker work; in every other run, whatever the per-ticker outcomes, the
exit status is 0. -/
theorem claim5_exit (w : Option (List String)) (k : Option String)
    (f : Nat → QuoteInputs × HttpOutcome) :
    ((runMain w k f).exitCode ≠ 0 ↔ (w = none ∨ keyMissing k = true)) ∧
    ((w = none ∨ keyMissing k = true) →
      (runMain w k f).trace = [] ∧ (runMain w k f).stocks = []) ∧
    (w ≠ none → keyMissing k = false → (runMain w k f).exitCode = 0) := by
  cases w with
  | none => simp [runMain, read_watchlist]
  | some lines =>
    cases hk : keyMissing k with
    | true => simp [runMain, read_watchlist, hk]
    | false => simp [runMain, read_watchlist, hk]

/-- Witness for C5: a run whose first ticker fails at the history call
still exits 0. -/
theorem claim5_exit_witness :
    (runMain (some ["A", "B"]) (some "k") quoteFailThenOk).exitCode = 0 :=
  (claim5_exit (some ["A", "B"]) (some "k") quoteFailThenOk).2.2
    (by simp) (by rfl)

/-! ## C9: the politeness delay between tickers -/

/-- Counterexample to C9 as stated: when the first ticker fails at its
history call, the `continue` skips the sleep, so the next history request
follows the failed one with no sleep between them. -/
theorem claim9_counterexample :
    sleepSeparated (runMain (some ["A", "B"]) (some "k") quoteFailThenOk).trace
      = false := by rfl

/-- In a run where no iteration fails, the restricted trace never shows two
adjacent history requests. -/
theorem runLoop_no_adjacent (f : Nat → QuoteInputs × HttpOutcome)
    (hs : ∀ j, (f j).2 ≠ HttpOutcome.failure) (ts : List String) (i : Nat) :
    adjacentHist (((runLoop f ts i).2.2).filter histOrSleep) = false := by
  induction ts generalizing i with
  | nil => rfl
  | cons t rest ih =>
    cases hpt : processTicker t (f i).1 (f i).2 with
    | none => exact absurd ((processTicker_none_iff t (f i).1 (f i).2).mp hpt) (hs i)
    | some ra =>
      obtain ⟨r, a⟩ := ra
      simp only [runLoop, hpt]
      simpa [histOrSleep, adjacentHist] using ih (i + 1)

/-- C9 amended: between consecutive successfully processed tickers the
orchestrator sleeps one second before the next history request, so when
every iteration succeeds all consecutive history requests are separated by
a sleep; an iteration that fails skips its sleep (see the counterexample). -/
theorem claim9_amended (w : Option (List String)) (k : Option String)
    (f : Nat → QuoteInputs × HttpOutcome)
    (hs : ∀ j, (f j).2 ≠ HttpOutcome.failure) :
    sleepSeparated (runMain w k f).trace = true := by
  cases w with
  | none => rfl
  | some lines =>
    cases hk : keyMissing k with
    | true => simp [runMain, read_watchlist, hk, sleepSeparated, adjacentHist]
    | false =>
      simp only [runMain, read_watchlist, hk, if_false, Bool.false_eq_true]
      rw [sleepSeparated, runLoop_no_adjacent f hs]
      rfl

/-- Witness for C9 amended: an all-success two-ticker run has its history
requests sleep-separated. -/
theorem claim9_amended_witness :
    sleepSeparated (runMain (some ["A", "B"]) (some "k") allOk).trace = true :=
  claim9_amended (some ["A", "B"]) (some "k") allOk
    (fun j => by simp [allOk])

/-! ## C8: the alert artifact -/

/-- `str.strip` is the identity on a list that starts and ends with
non-whitespace. -/
theorem pyStrip_eq_self (l : List Char) (c1 c2 : Char)
    (hh : l.head? = some c1) (h1 : isSpace c1 = false)
    (hl : l.getLast? = some c2) (h2 : isSpace c2 = false) :
    pyStrip l = l := by
  have hd : l.dropWhile isSpace = l := by
    cases l with
    | nil => rfl
    | cons a t =>
      obtain rfl : a = c1 := by simpa using hh
      simp [List.dropWhile_cons, h1]
  have hh2 : l.reverse.head? = some c2 := by
    rw [List.head?_reverse]; exact hl
  have hrev : l.reverse.dropWhile isSpace = l.reverse := by
    cases hr : l.reverse with
    | nil => rfl
    | cons a t =>
      rw [hr] at hh2
      obtain rfl : a = c2 := by simpa using hh2
      simp [List.dropWhile_cons, h2]
  rw [pyStrip, hd, hrev, List.reverse_reverse]

/-- The join of a message list starts with the first message. -/
theorem pyJoin_head (sep : String) (m : String) (ms : List String) (c : Char)
    (hc : m.data.head? = some c) :
    (pyJoin sep (m :: ms)).data.head? = some c := by
  cases ms with
  | nil => simpa [pyJoin] using hc
  | cons n ms' =>
    simp [pyJoin, String.data_append, List.head?_append, hc, Option.or_some]

/-- The join of messages all ending in the same character ends in it too. -/
theorem pyJoin_last (sep : String) (c : Char) :
    ∀ ms : List String, ms ≠ [] → (∀ m ∈ ms, m.data.getLast? = some c) →
      (pyJoin sep ms).data.getLast? = some c := by
  intro ms
  induction ms with
  | nil => intro hne; exact absurd rfl hne
  | cons m rest ih =>
    intro hne hall
    cases rest with
    | nil => exact hall m (by simp)
    | cons n rs =>
      have hrec : (pyJoin sep (n :: rs)).data.getLast? = some c :=
        ih (by simp) (fun x hx => hall x (List.mem_cons_of_mem m hx))
      simp only [pyJoin, String.data_append]
      rw [List.getLast?_append, hrec, Option.or_some]

/-- Every alert message starts with the letter S of the template. -/
theorem alertMessage_head (e : AlertEvent) :
    (alertMessage e).data.head? = some 'S' := by
  have hS : ("STOCK ALERT: ").data.head? = some 'S' := rfl
  simp [alertMessage, String.data_append, List.head?_append, hS, Option.or_some]

/-- Every alert message ends with the percent sign of the template. -/
theorem alertMessage_last (e : AlertEvent) :
    (alertMessage e).data.getLast? = some '%' := by
  rw [alertMessage, String.data_append]
  exact List.getLast?_concat _

/-- Every message the loop accumulates is an alert-template message. -/
theorem runLoop_alerts_shape (f : Nat → QuoteInputs × HttpOutcome) :
    ∀ (ts : List String) (i : Nat) m, m ∈ (runLoop f ts i).2.1 →
      ∃ e, m = alertMessage e := by
  intro ts
  induction ts with
  | nil => intro i m hm; simp [runLoop] at hm
  | cons t rest ih =>
    intro i m hm
    cases hpt : processTicker t (f i).1 (f i).2 with
    | none =>
      simp only [runLoop, hpt] at hm
      exact ih (i + 1) m hm
    | some ra =>
      obtain ⟨r, a⟩ := ra
      simp only [runLoop, hpt] at hm
      cases a with
      | none => exact ih (i + 1) m (by simpa using hm)
      | some e =>
        rcases (by simpa using hm : m = alertMessage e ∨
            m ∈ (runLoop f rest (i + 1)).2.1) with rfl | hmem
        · exact ⟨e, rfl⟩
        · exact ih (i + 1) m hmem

/-- C8: the alert artifact is written exactly when at least one alert was
produced, and then its content is the alert messages newline-joined with a
trailing newline; a zero-alert run writes nothing, leaving a pre-existing
artifact untouched. -/
theorem claim8_alert_file (w : Option (List String)) (k : Option String)
    (f : Nat → QuoteInputs × HttpOutcome) :
    ((runMain w k f).alertFile ≠ none ↔ (runMain w k f).alerts ≠ []) ∧
    ((runMain w k f).alerts ≠ [] →
      (runMain w k f).alertFile =
        some (pyJoin "\n" ((runMain w k f).alerts) ++ "\n")) := by
  cases w with
  | none => simp [runMain, read_watchlist]
  | some lines =>
    cases hk : keyMissing k with
    | true => simp [runMain, read_watchlist, hk]
    | false =>
      have hshape := runLoop_alerts_shape f ((lines.map pyStripStr).filter keepLine) 0
      simp only [runMain, read_watchlist, hk, Bool.false_eq_true, if_false]
      cases hms : (runLoop f ((lines.map pyStripStr).filter keepLine) 0).2.1 with
      | nil => simp
      | cons m ms =>
        have hstrip : pyStripStr (pyJoin "\n" (m :: ms)) = pyJoin "\n" (m :: ms) := by
          obtain ⟨e0, he0⟩ := hshape m (by rw [hms]; simp)
          refine congrArg String.mk (pyStrip_eq_self _ 'S' '%' ?_ (by decide) ?_ (by decide))
          · exact pyJoin_head "\n" _ ms 'S' (he0 ▸ alertMessage_head e0)
          · refine pyJoin_last "\n" '%' _ (by simp) ?_
            intro x hx
            obtain ⟨ex, hex⟩ := hshape x (by rw [hms]; exact hx)
            exact hex ▸ alertMessage_last ex
        simp [hstrip]

/-- Witness for C8: a one-ticker run that produces an alert writes the
joined messages with a trailing newline. -/
theorem claim8_alert_file_witness :
    (runMain (some ["AAPL"]) (some "k") alertRun).alertFile =
      some (pyJoin "\n" ((runMain (some ["AAPL"]) (some "k") alertRun).alerts)
        ++ "\n") := by
  refine (claim8_alert_file (some ["AAPL"]) (some "k") alertRun).2 ?_
  have hrw : read_watchlist (some ["AAPL"]) = Except.ok ["AAPL"] := rfl
  have halerts : (runMain (some ["AAPL"]) (some "k") alertRun).alerts =
      [alertMessage a1] := by
    have hfetch : alertRun 0 = (w1q, HttpOutcome.ok AVBody.noSeries) := rfl
    simp only [runMain, hrw, keyMissing]
    simp [runLoop, hfetch, processTicker_w1q]
  rw [halerts]
  simp

end StockWorkflow
